import Mathlib

/-!
Verification development for the jewelry inventory / POS front-end.

The embedding covers the three core components of the repository:

* the scan stream parser of src/components/pos/ProductScanner.tsx
  (keydown handler, buffer timeout logic, pattern matching, bulk ledger);
* the bar-pattern generators of ProductForm (generateCode128Bars,
  generateBarcodePattern) and the price/barcode validation of
  handleSubmit;
* the markup resolution of src/utils/markupSettings.ts.

The cipher codec itself (generateBarcodes and the price-cipher decode of
utils/barcodeGenerator.ts) is not part of the provided sources; it is
modelled from the specification where needed, as indicated on each
definition.

JS strings are embedded as List Char (with String at interfaces),
JS numbers on the price paths as Int (the forms strip non-digits, but
Number(...) comparisons are integer comparisons), markup fractions as
rationals.
-/

namespace POS

/-! ## Scan stream parser (ProductScanner.tsx) -/

/-- The distinguished keys handled by handleKeyDown of ProductScanner.tsx;
every other key arrives as a plain character. -/
inductive Key where
  | char (c : Char)
  | enter
  | shift
  | control
  | alt
  | escape
  deriving DecidableEq, Repr

/-- A keydown event: the key, whether e.ctrlKey was set, and the value of
Date.now() at arrival (handleKeyDown reads the clock once per event). -/
structure KeyEvent where
  key : Key
  ctrl : Bool
  time : Int
  deriving DecidableEq, Repr

/-- The mutable refs/state of ProductScanner that the keydown handler
reads or writes: scanning (whether the handler is installed), debugMode,
buffer, lastKeyTime and isShiftPressed. -/
structure ScanState where
  scanning : Bool
  debugMode : Bool
  buffer : List Char
  lastKeyTime : Int
  shiftHeld : Bool
  deriving DecidableEq, Repr

/-- SKU_PATTERN = "RIMO1200597", the hardcoded expected token. -/
def skuPattern : List Char := "RIMO1200597".toList

/-- SCAN_TIMEOUT = 30 (ms), the inactivity threshold. -/
def scanTimeout : Int := 30

/-- processSku dispatches a token unless it is empty (`if (!sku) return`).
Only the emission is modelled here; the bulk-ledger effect is
processSkuBulk below. -/
def processSkuTrace (sku : List Char) : List (List Char) :=
  if sku = [] then [] else [sku]

/-- Leftmost, non-overlapping occurrences of SKU_PATTERN, as returned by
buffer.match(skuRegex) with the global flag. The fuel argument is the
initial buffer length, enough for the whole scan. -/
def jsMatchesAux : Nat → List Char → List (List Char)
  | 0, _ => []
  | _ + 1, [] => []
  | fuel + 1, b@(_ :: t) =>
    if skuPattern.isPrefixOf b then skuPattern :: jsMatchesAux fuel (b.drop skuPattern.length)
    else jsMatchesAux fuel t

/-- All matches of the SKU pattern in the buffer (regex global match). -/
def jsMatches (b : List Char) : List (List Char) :=
  jsMatchesAux b.length b

/-- The last index at which SKU_PATTERN occurs in the buffer
(buffer.lastIndexOf(SKU_PATTERN)); none when absent. -/
def jsLastIndexOf (b pat : List Char) : Option Nat :=
  ((List.range (b.length + 1)).filter (fun i => pat.isPrefixOf (b.drop i))).getLast?

/-- The character branch of handleKeyDown: append the key, cap the buffer
at 1000 characters keeping the trailing 200, then if the buffer ends with
SKU_PATTERN emit it and keep only what follows the last occurrence.
Returns the new buffer and the emitted tokens. -/
def charStep (b : List Char) (c : Char) : List Char × List (List Char) :=
  let b1 := b ++ [c]
  let b2 := if b1.length > 1000 then b1.drop (b1.length - 200) else b1
  if skuPattern.isSuffixOf b2 then
    let idx := (jsLastIndexOf b2 skuPattern).getD 0
    (b2.drop (idx + skuPattern.length), processSkuTrace skuPattern)
  else
    (b2, [])

/-- processBuffer (the Enter branch): if the buffer is empty do nothing;
otherwise dispatch every regex match, or the whole buffer when there is
no match. The buffer is cleared by the caller. -/
def processBufferTrace (b : List Char) : List (List Char) :=
  if b = [] then []
  else
    let ms := jsMatches b
    if ms ≠ [] then ms else processSkuTrace b

/-- One keydown event, following handleKeyDown of ProductScanner.tsx
line by line: Escape exits scanning; Ctrl+D toggles debug mode; Shift
only records the modifier; otherwise the buffer is cleared when more
than SCAN_TIMEOUT ms elapsed since the previous non-modifier key, the
timestamp is updated for non-modifier keys, and Enter flushes the buffer
while a character is appended and pattern-checked. When scanning is off
the handler is not installed and the event is ignored. Returns the new
state and the list of dispatched tokens. -/
def step (s : ScanState) (e : KeyEvent) : ScanState × List (List Char) :=
  if s.scanning = false then (s, [])
  else if e.key = .escape then ({ s with scanning := false }, [])
  else if e.ctrl = true ∧ e.key = .char 'd' then ({ s with debugMode := !s.debugMode }, [])
  else if e.key = .shift then ({ s with shiftHeld := true }, [])
  else
    let buf0 := if e.time - s.lastKeyTime > scanTimeout ∧ e.key ≠ .shift then [] else s.buffer
    let lkt := if e.key ≠ .shift ∧ e.key ≠ .control ∧ e.key ≠ .alt then e.time else s.lastKeyTime
    if e.key = .enter then
      ({ s with buffer := [], lastKeyTime := lkt }, processBufferTrace buf0)
    else
      match e.key with
      | .char c =>
        let p := charStep buf0 c
        ({ s with buffer := p.1, lastKeyTime := lkt }, p.2)
      | _ => ({ s with buffer := buf0, lastKeyTime := lkt }, [])

/-- handleKeyUp: only a Shift release is tracked. -/
def stepUp (s : ScanState) (k : Key) : ScanState :=
  if s.scanning = true ∧ k = .shift then { s with shiftHeld := false } else s

/-- Run the keydown handler over a stream of events, concatenating the
dispatched tokens. -/
def run (s : ScanState) : List KeyEvent → ScanState × List (List Char)
  | [] => (s, [])
  | e :: es =>
    let p := step s e
    let q := run p.1 es
    (q.1, p.2 ++ q.2)

/-- The buffer/emission behaviour of an uninterrupted character burst
(no timeout resets): fold charStep over the characters. -/
def pureRun (b : List Char) : List Char → List Char × List (List Char)
  | [] => (b, [])
  | c :: cs =>
    let p := charStep b c
    let q := pureRun p.1 cs
    (q.1, p.2 ++ q.2)

/-- Build character events from characters and timestamps. -/
def mkEvents (cs : List Char) (ts : List Int) : List KeyEvent :=
  List.zipWith (fun c t => { key := Key.char c, ctrl := false, time := t }) cs ts

/-- Every consecutive gap in the timestamp list is at most SCAN_TIMEOUT,
starting from the previous timestamp prev. -/
def gapsOk (prev : Int) : List Int → Bool
  | [] => true
  | t :: ts => decide (t - prev ≤ scanTimeout) && gapsOk t ts

/-- Gaps within the list only (no constraint on the first event). -/
def gapsOkList : List Int → Bool
  | [] => true
  | t :: ts => gapsOk t ts

/-- Last element of a timestamp list, or the supplied default. -/
def lastD : List Int → Int → Int
  | [], d => d
  | t :: ts, _ => lastD ts t

/-! ## Bulk scan ledger (ProductScanner.tsx) -/

/-- One entry of the bulk scan ledger, as in the bulkItems state:
an SKU with its accumulated quantity. -/
structure BulkItem where
  sku : String
  quantity : Nat
  deriving DecidableEq, Repr

/-- The sku comparison used throughout the bulk handlers
(item.sku === sku). -/
def skuPred (s : String) (i : BulkItem) : Bool :=
  i.sku == s

/-- The bulk branch of processSku: an empty sku returns early; if an
entry for the sku exists, the entry at its findIndex is copied with
quantity + 1 (the index -1 guard leaves the list unchanged); otherwise
the sku is appended with quantity one. -/
def processSkuBulk (items : List BulkItem) (sku : String) : List BulkItem :=
  if sku = "" then items
  else if (items.find? (skuPred sku)).isSome then
    match items.findIdx? (skuPred sku) with
    | some idx => items.modify (fun i => { i with quantity := i.quantity + 1 }) idx
    | none => items
  else
    items ++ [{ sku := sku, quantity := 1 }]

/-- The bulk branch of handleManualSubmit: an empty input returns early;
if an entry exists, every entry whose sku matches is incremented by one
via map; otherwise the sku is appended with quantity one. -/
def handleManualSubmitBulk (items : List BulkItem) (inputSku : String) : List BulkItem :=
  if inputSku = "" then items
  else if (items.find? (skuPred inputSku)).isSome then
    items.map (fun i => if skuPred inputSku i then { i with quantity := i.quantity + 1 } else i)
  else
    items ++ [{ sku := inputSku, quantity := 1 }]

/-- The quantity recorded for a sku: the quantity of the first ledger
entry carrying it, if any. -/
def qtyOf (items : List BulkItem) (s : String) : Option Nat :=
  (items.find? (skuPred s)).map (fun i => i.quantity)

/-- Recursive form of the processSku ledger update: increment the first
entry for the sku, or append a fresh entry. Proved equal to
processSkuBulk below. -/
def incFirst (sku : String) : List BulkItem → List BulkItem
  | [] => [{ sku := sku, quantity := 1 }]
  | x :: xs =>
    if skuPred sku x then { x with quantity := x.quantity + 1 } :: xs
    else x :: incFirst sku xs

/-! ## Markup resolution (src/utils/markupSettings.ts) -/

/-- The scope of a markup setting: the type field of MarkupSetting. -/
inductive MarkupScope where
  | manufacturer
  | category
  deriving DecidableEq, Repr

/-- A markup setting row, as in markupSettings.ts. The markup fraction
is embedded as a rational. -/
structure MarkupSetting where
  id : String
  type : MarkupScope
  name : String
  markup : ℚ
  deriving DecidableEq, Repr

/-- The hardcoded defaultMarkupSettings table of markupSettings.ts. -/
def defaultMarkupSettings : List MarkupSetting :=
  [ { id := "1", type := .manufacturer, name := "Cartier", markup := 3/10 },
    { id := "2", type := .manufacturer, name := "Tiffany", markup := 35/100 },
    { id := "3", type := .manufacturer, name := "Pandora", markup := 25/100 },
    { id := "4", type := .manufacturer, name := "Swarovski", markup := 28/100 },
    { id := "5", type := .manufacturer, name := "Local", markup := 2/10 },
    { id := "6", type := .category, name := "Rings", markup := 25/100 },
    { id := "7", type := .category, name := "Necklaces", markup := 3/10 },
    { id := "8", type := .category, name := "Earrings", markup := 28/100 },
    { id := "9", type := .category, name := "Bracelets", markup := 32/100 },
    { id := "10", type := .category, name := "Watches", markup := 4/10 } ]

/-- JavaScript a || b on an optional number: undefined and 0 both fall
through to the alternative (0 is falsy). -/
def jsOrQ (o : Option ℚ) (d : ℚ) : ℚ :=
  match o with
  | some x => if x = 0 then d else x
  | none => d

/-- The predicate of the manufacturer find in getMarkupForProduct. -/
def mfrPred (manufacturer : String) (s : MarkupSetting) : Bool :=
  s.type == .manufacturer && s.name == manufacturer

/-- The predicate of the category find in getMarkupForProduct. -/
def catPred (category : String) (s : MarkupSetting) : Bool :=
  s.type == .category && s.name == category

/-- getMarkupForProduct generalized over the settings table it closes
over (the table is settings data, fetched from the database elsewhere in
the source): manufacturerSetting?.markup || categorySetting?.markup || 0.2,
with the JS falsy-zero semantics of ||. -/
def getMarkupWith (settings : List MarkupSetting) (manufacturer category : String) : ℚ :=
  let manufacturerSetting := settings.find? (mfrPred manufacturer)
  let categorySetting := settings.find? (catPred category)
  jsOrQ (manufacturerSetting.map (fun s => s.markup))
    (jsOrQ (categorySetting.map (fun s => s.markup)) (2/10))

/-- getMarkupForProduct of markupSettings.ts, over its hardcoded table. -/
def getMarkupForProduct (manufacturer category : String) : ℚ :=
  getMarkupWith defaultMarkupSettings manufacturer category

/-! ## Bar pattern generators (ProductForm, part_000) -/

/-- The per-character block of generateCode128Bars: a pattern chosen by
the position parity followed by one chosen by charCode % 32 % 3. -/
def code128Block (i : Nat) (c : Char) : List Nat :=
  let charCode := c.toNat % 32
  (if i % 2 = 0 then [1, 2, 2, 1, 1, 1] else [1, 1, 2, 2, 1, 1]) ++
    (if charCode % 3 = 0 then [2, 1, 1, 1, 2, 1]
     else if charCode % 3 = 1 then [1, 2, 1, 1, 1, 2]
     else [1, 1, 2, 1, 2, 1])

/-- The character loop of generateCode128Bars, indexed from i. -/
def code128BarsAux (i : Nat) : List Char → List Nat
  | [] => []
  | c :: cs => code128Block i c ++ code128BarsAux (i + 1) cs

/-- generateCode128Bars of ProductForm: start pattern, one block per
character, stop pattern. -/
def generateCode128Bars (text : List Char) : List Nat :=
  [2, 1, 1, 2, 3, 2] ++ code128BarsAux 0 text ++ [2, 3, 3, 1, 1, 1, 2]

/-- The per-character pattern of generateBarcodePattern, chosen by the
character class (digit / uppercase / lowercase / other). -/
def barcodePatternBlock (c : Char) : List Nat :=
  let charCode := c.toNat
  if 48 ≤ charCode ∧ charCode ≤ 57 then [2, 1, 1, 2, 1, 1]
  else if 65 ≤ charCode ∧ charCode ≤ 90 then [1, 2, 1, 1, 2, 1]
  else if 97 ≤ charCode ∧ charCode ≤ 122 then [1, 1, 2, 1, 1, 2]
  else [1, 1, 1, 2, 2, 1]

/-- generateBarcodePattern of ProductForm: quiet zone + start pattern,
one pattern per character, stop pattern. -/
def generateBarcodePattern (text : List Char) : List Nat :=
  [1, 2, 1, 2, 3, 2, 1] ++ (text.map barcodePatternBlock).flatten ++ [2, 3, 3, 1, 1, 1, 2]

/-- The class a character falls into in generateCode128Bars: its block
depends on the position parity and on this value only. -/
def code128Class (c : Char) : Nat :=
  c.toNat % 32 % 3

/-- The class a character falls into in generateBarcodePattern. -/
def barcodeCharClass (c : Char) : Nat :=
  let charCode := c.toNat
  if 48 ≤ charCode ∧ charCode ≤ 57 then 0
  else if 65 ≤ charCode ∧ charCode ≤ 90 then 1
  else if 97 ≤ charCode ∧ charCode ≤ 122 then 2
  else 3

/-! ## Cipher codec

utils/barcodeGenerator.ts (generateBarcodes, the price cipher and its
decoder, encodeCode128) is not among the provided sources; only its
callers (ProductForm.generateBarcode, handleSubmit) are. The codec below
is therefore modelled from the specification, 4.1 and 6. -/

/-- Modelled from the spec: the fixed digit alphabet of the price cipher,
a base-32 alphanumeric alphabet excluding the visually ambiguous
characters 0, O, 1 and I (spec 4.1 step 2). -/
def cipherDigits : List Char := "23456789ABCDEFGHJKLMNPQRSTUVWXYZ".toList

/-- Modelled from the spec: the fixed width of one encoded price
(spec 4.1: each price is a fixed-width base-N digit group). -/
def priceWidth : Nat := 4

/-- Big-endian base-32 digits of a number, left-padded to the given
width. -/
def natToDigitsBE : Nat → Nat → List Nat
  | 0, _ => []
  | w + 1, n => natToDigitsBE w (n / 32) ++ [n % 32]

/-- Value of a big-endian base-32 digit list. -/
def digitsToNat (l : List Nat) : Nat :=
  l.foldl (fun a d => a * 32 + d) 0

/-- Modelled from the spec: one price as a fixed-width digit group over
the cipher alphabet. -/
def encodePrice (n : Nat) : List Char :=
  (natToDigitsBE priceWidth n).map (fun d => cipherDigits.getD d ' ')

/-- Position of a character in the cipher alphabet. -/
def charToDigit (c : Char) : Nat :=
  cipherDigits.indexOf c

/-- Every character of the candidate cipher is in the alphabet. -/
def cipherOk (l : List Char) : Bool :=
  l.all (fun c => cipherDigits.contains c)

/-- Modelled from the spec: decode(cipher) of utils/barcodeGenerator.ts,
the left inverse of the price-encoding portion of encode (spec 4.1, 8):
a well-formed cipher is two fixed-width digit groups, wholesale then
retail. -/
def decodeCipher (s : String) : Option (Nat × Nat) :=
  let l := s.toList
  if l.length = 2 * priceWidth ∧ cipherOk l then
    some (digitsToNat ((l.take priceWidth).map charToDigit),
          digitsToNat ((l.drop priceWidth).map charToDigit))
  else none

/-- The error taxonomy of the encoding path (spec 7). -/
inductive EncodeError where
  | invalidInput (msg : String)
  | unknownManufacturer
  | unknownCategory
  deriving DecidableEq, Repr

/-- The user-facing message of an encoding error. -/
def encodeErrorMessage : EncodeError → String
  | .invalidInput msg => msg
  | .unknownManufacturer => "Unknown manufacturer"
  | .unknownCategory => "Unknown category"

/-- The ProductCode produced by the codec (spec 3): the human-facing sku,
the embedded price cipher, the QR payload and the Code 128 payload. -/
structure ProductCode where
  sku : String
  cipher : String
  qrPayload : String
  code128Payload : String
  deriving DecidableEq, Repr

/-- Modelled from the spec: generateBarcodes of utils/barcodeGenerator.ts
(absent from the sources), spec 4.1: validate the prices (non-positive
prices, ordering violations against an optional buy price, and prices too
large for the fixed-width groups are InvalidInput); resolve the
manufacturer and category codes from the lookup tables; compose
cipher = wholesale group ++ retail group, sku = mcode-ccode-cipher,
qrPayload = sku optionally wrapped with the note, code128Payload = sku.
The buy price is excluded from every output (spec 4.1 step 2). -/
def generateBarcodes (manufacturerTable categoryTable : List (String × String))
    (category manufacturer : String) (wholesalePrice retailPrice : Int)
    (buyPrice : Option Int) (note : Option String) : Except EncodeError ProductCode :=
  if wholesalePrice ≤ 0 ∨ retailPrice ≤ 0 then
    .error (.invalidInput "Prices must be greater than 0")
  else if retailPrice ≤ wholesalePrice then
    .error (.invalidInput "Retail price must be greater than wholesale price")
  else if buyPrice.any (fun b => decide (b ≤ 0) || decide (wholesalePrice ≤ b)) then
    .error (.invalidInput "Wholesale price must be greater than buy price")
  else if 32 ^ priceWidth ≤ wholesalePrice ∨ (32 ^ priceWidth : Int) ≤ retailPrice then
    .error (.invalidInput "Price out of range")
  else
    match manufacturerTable.lookup manufacturer with
    | none => .error .unknownManufacturer
    | some mcode =>
      match categoryTable.lookup category with
      | none => .error .unknownCategory
      | some ccode =>
        let cipher := String.mk (encodePrice wholesalePrice.toNat ++ encodePrice retailPrice.toNat)
        let sku := mcode ++ "-" ++ ccode ++ "-" ++ cipher
        .ok { sku := sku, cipher := cipher,
              qrPayload := sku ++ (match note with | some n => "|" ++ n | none => ""),
              code128Payload := sku }

/-! ## Product form submission (ProductForm, part_000) -/

/-- The productData record assembled by handleSubmit before onSubmit. -/
structure ProductData where
  category : String
  manufacturer : String
  buyPrice : Int
  wholesalePrice : Int
  retailPrice : Int
  sku : String
  qrCode : String
  code128 : String
  cipher : String
  deriving DecidableEq, Repr

/-- Structural model of String.trim (strip leading and trailing
whitespace), used for the required-fields check of handleSubmit. -/
def strTrim (s : String) : String :=
  String.mk (((s.toList.dropWhile Char.isWhitespace).reverse.dropWhile
    Char.isWhitespace).reverse)

/-- The price validation of handleSubmit, in source order with the source
messages; none means the prices passed. -/
def handleSubmitValidate (buyPrice wholesalePrice retailPrice : Int) : Option String :=
  if buyPrice ≤ 0 then some "Buy price must be greater than 0"
  else if wholesalePrice ≤ buyPrice then some "Wholesale price must be greater than buy price"
  else if retailPrice ≤ wholesalePrice then some "Retail price must be greater than wholesale price"
  else none

/-- handleSubmit of ProductForm: required fields, then the three price
checks, then generateBarcodes(category, manufacturer, wholesalePrice,
retailPrice, undefined, additional_info) - the buy price is not passed -
then the truthiness check on the barcodes, then the productData record.
Any failure aborts with an error before a product is produced. -/
def handleSubmit (manufacturerTable categoryTable : List (String × String))
    (category manufacturer : String) (buyPrice wholesalePrice retailPrice : Int)
    (additionalInfo : String) : Except String ProductData :=
  if strTrim category = "" ∨ strTrim manufacturer = "" then
    .error "Required fields missing"
  else
    match handleSubmitValidate buyPrice wholesalePrice retailPrice with
    | some msg => .error msg
    | none =>
      match generateBarcodes manufacturerTable categoryTable category manufacturer
          wholesalePrice retailPrice none (some additionalInfo) with
      | .error e => .error ("Barcode generation failed: " ++ encodeErrorMessage e)
      | .ok barcodes =>
        if barcodes.sku = "" ∨ barcodes.qrPayload = "" ∨ barcodes.code128Payload = "" then
          .error "Failed to generate valid product barcodes"
        else
          .ok { category := category, manufacturer := manufacturer,
                buyPrice := buyPrice, wholesalePrice := wholesalePrice,
                retailPrice := retailPrice, sku := barcodes.sku,
                qrCode := barcodes.qrPayload, code128 := barcodes.code128Payload,
                cipher := barcodes.cipher }

/-- generateBarcode of ProductForm (the preview path): aborts on invalid
(non-positive) wholesale or retail values, otherwise calls
generateBarcodes with no buy price. -/
def generateBarcodePreview (manufacturerTable categoryTable : List (String × String))
    (category manufacturer : String) (wholesalePrice retailPrice : Int)
    (additionalInfo : String) : Except String ProductCode :=
  if wholesalePrice ≤ 0 ∨ retailPrice ≤ 0 then .error "Invalid price values"
  else
    (generateBarcodes manufacturerTable categoryTable category manufacturer
      wholesalePrice retailPrice none (some additionalInfo)).mapError encodeErrorMessage

/-! ## Bulk ledger lemmas -/

theorem processSkuBulk_eq_incFirst (sku : String) (h : sku ≠ "") (items : List BulkItem) :
    processSkuBulk items sku = incFirst sku items := by
  induction items with
  | nil => simp [processSkuBulk, incFirst, h]
  | cons x xs ih =>
    by_cases hx : skuPred sku x = true
    · have hfind : (x :: xs).find? (skuPred sku) = some x :=
        List.find?_cons_of_pos _ hx
      have hidx : (x :: xs).findIdx? (skuPred sku) = some 0 := by
        rw [List.findIdx?_cons, if_pos hx]
      rw [show incFirst sku (x :: xs) = { x with quantity := x.quantity + 1 } :: xs from by
        simp [incFirst, hx]]
      simp only [processSkuBulk, if_neg h, hfind, Option.isSome_some, if_true, hidx,
        List.modify_zero_cons]
    · have hfind : (x :: xs).find? (skuPred sku) = xs.find? (skuPred sku) :=
        List.find?_cons_of_neg _ hx
      rw [show incFirst sku (x :: xs) = x :: incFirst sku xs from by simp [incFirst, hx]]
      rcases hfs : xs.find? (skuPred sku) with _ | v
      · have htail : xs ++ [{ sku := sku, quantity := 1 }] = incFirst sku xs := by
          have hh := ih
          rwa [show processSkuBulk xs sku = xs ++ [{ sku := sku, quantity := 1 }] from by
            simp only [processSkuBulk, if_neg h, hfs]; rfl] at hh
        simp only [processSkuBulk, if_neg h, hfind, hfs]
        simpa using htail
      · obtain ⟨k, hk⟩ : ∃ k, xs.findIdx? (skuPred sku) = some k := by
          have hmem : v ∈ xs := List.mem_of_find?_eq_some hfs
          have hpv : skuPred sku v = true := List.find?_some hfs
          have h1 : (xs.findIdx? (skuPred sku)).isSome = true := by
            rw [List.findIdx?_isSome, List.any_eq_true]
            exact ⟨v, hmem, hpv⟩
          exact Option.isSome_iff_exists.mp h1
        have hidx : (x :: xs).findIdx? (skuPred sku) = some (k + 1) := by
          rw [List.findIdx?_cons, if_neg (by simp [hx])]
          rw [show (1 : Nat) = 0 + 1 from rfl, List.findIdx?_succ, hk]
          rfl
        have htail : xs.modify (fun i => { i with quantity := i.quantity + 1 }) k =
            incFirst sku xs := by
          have hh := ih
          rwa [show processSkuBulk xs sku =
              xs.modify (fun i => { i with quantity := i.quantity + 1 }) k from by
            simp only [processSkuBulk, if_neg h, hfs, Option.isSome_some, if_true, hk]] at hh
        simp only [processSkuBulk, if_neg h, hfind, hfs, Option.isSome_some, if_true, hidx,
          List.modify_succ_cons, htail]

theorem qtyOf_incFirst_self (sku : String) (items : List BulkItem) :
    qtyOf (incFirst sku items) sku = some ((qtyOf items sku).getD 0 + 1) := by
  induction items with
  | nil => simp [incFirst, qtyOf, skuPred]
  | cons x xs ih =>
    by_cases hx : skuPred sku x = true
    · rw [show incFirst sku (x :: xs) = { x with quantity := x.quantity + 1 } :: xs from by
        simp [incFirst, hx]]
      unfold qtyOf
      have hx1 : skuPred sku { x with quantity := x.quantity + 1 } = true := hx
      rw [List.find?_cons_of_pos _ hx1, List.find?_cons_of_pos _ hx]
      simp
    · rw [show incFirst sku (x :: xs) = x :: incFirst sku xs from by simp [incFirst, hx]]
      unfold qtyOf at ih ⊢
      rw [List.find?_cons_of_neg _ hx, List.find?_cons_of_neg _ hx]
      exact ih

theorem qtyOf_incFirst_other (sku s2 : String) (hne : s2 ≠ sku) (items : List BulkItem) :
    qtyOf (incFirst sku items) s2 = qtyOf items s2 := by
  induction items with
  | nil =>
    unfold qtyOf incFirst
    have hfalse : skuPred s2 { sku := sku, quantity := 1 } = false := by
      simp [skuPred]
      exact fun hcon => hne hcon.symm
    rw [List.find?_cons_of_neg _ (by simp [hfalse])]
  | cons x xs ih =>
    by_cases hx : skuPred sku x = true
    · have hxe : x.sku = sku := by simpa [skuPred] using hx
      have hx2 : ¬ skuPred s2 x = true := by
        simp [skuPred, hxe]
        exact fun hcon => hne hcon.symm
      have hx2a : ¬ skuPred s2 { x with quantity := x.quantity + 1 } = true := hx2
      rw [show incFirst sku (x :: xs) = { x with quantity := x.quantity + 1 } :: xs from by
        simp [incFirst, hx]]
      unfold qtyOf
      rw [List.find?_cons_of_neg _ hx2a, List.find?_cons_of_neg _ hx2]
    · rw [show incFirst sku (x :: xs) = x :: incFirst sku xs from by simp [incFirst, hx]]
      by_cases hx2 : skuPred s2 x = true
      · unfold qtyOf
        rw [List.find?_cons_of_pos _ hx2, List.find?_cons_of_pos _ hx2]
      · unfold qtyOf at ih ⊢
        rw [List.find?_cons_of_neg _ hx2, List.find?_cons_of_neg _ hx2]
        exact ih

theorem incFirst_mem (sku : String) (items : List BulkItem) (e : BulkItem) (he : e ∈ items) :
    ∃ e1 ∈ incFirst sku items, e1.sku = e.sku ∧ e.quantity ≤ e1.quantity := by
  induction items with
  | nil => cases he
  | cons x xs ih =>
    by_cases hx : skuPred sku x = true
    · rcases List.mem_cons.mp he with rfl | hmem
      · exact ⟨{ e with quantity := e.quantity + 1 }, by simp [incFirst, hx], rfl, by simp⟩
      · exact ⟨e, by simp [incFirst, hx, hmem], rfl, le_refl _⟩
    · rcases List.mem_cons.mp he with rfl | hmem
      · exact ⟨e, by simp [incFirst, hx], rfl, le_refl _⟩
      · obtain ⟨e1, he1, hsk, hq⟩ := ih hmem
        refine ⟨e1, ?_, hsk, hq⟩
        rw [show incFirst sku (x :: xs) = x :: incFirst sku xs from by simp [incFirst, hx]]
        exact List.mem_cons_of_mem _ he1

/-- C6: in bulk mode, dispatching a recognized token increments the
ledger quantity of an already-present SKU by one and inserts the SKU
with quantity one otherwise; for every other SKU the record is
unchanged; in particular three scans of the same token, through either
the scanner dispatch (processSku) or manual submission, produce the
single entry with quantity 3 rather than three entries. -/
theorem bulk_accumulate (items : List BulkItem) (sku : String) (hsku : sku ≠ "") :
    qtyOf (processSkuBulk items sku) sku = some ((qtyOf items sku).getD 0 + 1) ∧
    (∀ s2, s2 ≠ sku → qtyOf (processSkuBulk items sku) s2 = qtyOf items s2) ∧
    processSkuBulk (processSkuBulk (processSkuBulk [] sku) sku) sku =
      [{ sku := sku, quantity := 3 }] ∧
    handleManualSubmitBulk (handleManualSubmitBulk (handleManualSubmitBulk [] sku) sku) sku =
      [{ sku := sku, quantity := 3 }] := by
  refine ⟨?_, ?_, ?_, ?_⟩
  · rw [processSkuBulk_eq_incFirst sku hsku]
    exact qtyOf_incFirst_self sku items
  · intro s2 hne
    rw [processSkuBulk_eq_incFirst sku hsku]
    exact qtyOf_incFirst_other sku s2 hne items
  · rw [processSkuBulk_eq_incFirst sku hsku, processSkuBulk_eq_incFirst sku hsku,
      processSkuBulk_eq_incFirst sku hsku]
    simp [incFirst, skuPred]
  · simp [handleManualSubmitBulk, hsku, skuPred, List.find?_cons]

/-- C10: a token dispatch in bulk mode, whether from the scanner
(processSku) or from manual submission, never removes a ledger entry and
never decreases a quantity: every entry of the ledger has, after the
dispatch, an entry with the same SKU and at least its quantity. -/
theorem bulk_monotone (items : List BulkItem) (sku : String) (e : BulkItem) (he : e ∈ items) :
    (∃ e1 ∈ processSkuBulk items sku, e1.sku = e.sku ∧ e.quantity ≤ e1.quantity) ∧
    (∃ e2 ∈ handleManualSubmitBulk items sku, e2.sku = e.sku ∧ e.quantity ≤ e2.quantity) := by
  constructor
  · by_cases hsku : sku = ""
    · exact ⟨e, by simp [processSkuBulk, hsku, he], rfl, le_refl _⟩
    · rw [processSkuBulk_eq_incFirst sku hsku]
      exact incFirst_mem sku items e he
  · by_cases hsku : sku = ""
    · exact ⟨e, by simp [handleManualSubmitBulk, hsku, he], rfl, le_refl _⟩
    · by_cases hfs : ((items.find? (skuPred sku)).isSome = true)
      · refine ⟨if skuPred sku e then { e with quantity := e.quantity + 1 } else e, ?_, ?_, ?_⟩
        · simp only [handleManualSubmitBulk, if_neg hsku, hfs, if_true]
          exact List.mem_map_of_mem _ he
        · by_cases hsk : skuPred sku e = true <;> simp [hsk]
        · by_cases hsk : skuPred sku e = true <;> simp [hsk]
      · refine ⟨e, ?_, rfl, le_refl _⟩
        simp only [handleManualSubmitBulk, if_neg hsku]
        rw [if_neg hfs]
        exact List.mem_append_left _ he

/-- Witness for bulk_accumulate at a concrete ledger and SKU. -/
theorem bulk_accumulate_witness :
    qtyOf (processSkuBulk [⟨"A", 2⟩] "A") "A" = some ((qtyOf [⟨"A", 2⟩] "A").getD 0 + 1) ∧
    (∀ s2, s2 ≠ "A" → qtyOf (processSkuBulk [⟨"A", 2⟩] "A") s2 = qtyOf [⟨"A", 2⟩] s2) ∧
    processSkuBulk (processSkuBulk (processSkuBulk [] "A") "A") "A" =
      [{ sku := "A", quantity := 3 }] ∧
    handleManualSubmitBulk (handleManualSubmitBulk (handleManualSubmitBulk [] "A") "A") "A" =
      [{ sku := "A", quantity := 3 }] :=
  bulk_accumulate [⟨"A", 2⟩] "A" (by decide)

/-- Witness for bulk_monotone at a concrete ledger and entry. -/
theorem bulk_monotone_witness :
    (∃ e1 ∈ processSkuBulk [⟨"A", 2⟩] "B", e1.sku = BulkItem.sku ⟨"A", 2⟩ ∧
      BulkItem.quantity ⟨"A", 2⟩ ≤ e1.quantity) ∧
    (∃ e2 ∈ handleManualSubmitBulk [⟨"A", 2⟩] "B", e2.sku = BulkItem.sku ⟨"A", 2⟩ ∧
      BulkItem.quantity ⟨"A", 2⟩ ≤ e2.quantity) :=
  bulk_monotone [⟨"A", 2⟩] "B" ⟨"A", 2⟩ (by simp)

/-! ## Modifier-key frame effects (C7) -/

/-- C7 counterexample: a Control keydown arriving more than SCAN_TIMEOUT
ms after the previous non-modifier key clears the scan buffer, so a pure
modifier event does not always leave the buffer unchanged. -/
theorem modifier_clears_buffer_cex :
    (step { scanning := true, debugMode := false, buffer := "RIMO".toList,
            lastKeyTime := 0, shiftHeld := false }
        { key := .control, ctrl := false, time := 100 }).1.buffer = [] ∧
    "RIMO".toList ≠ ([] : List Char) := by
  decide

/-- C7 amended: while Listening, a Shift keydown updates only the
shift-held flag, leaving buffer and timestamp unchanged and emitting
nothing; Control and Alt keydowns never update modifier-held state or
the timestamp and never emit, and they leave the buffer unchanged
exactly when the inactivity threshold has not elapsed - when it has,
the timeout reset clears the buffer before they are discarded. -/
theorem modifier_frame_amended (s : ScanState) (t : Int) (hs : s.scanning = true) :
    step s { key := .shift, ctrl := false, time := t } = ({ s with shiftHeld := true }, []) ∧
    (t - s.lastKeyTime ≤ scanTimeout →
      step s { key := .control, ctrl := false, time := t } = (s, []) ∧
      step s { key := .alt, ctrl := false, time := t } = (s, [])) ∧
    (t - s.lastKeyTime > scanTimeout →
      step s { key := .control, ctrl := false, time := t } = ({ s with buffer := [] }, []) ∧
      step s { key := .alt, ctrl := false, time := t } = ({ s with buffer := [] }, [])) := by
  obtain ⟨sc, dm, bf, lk, sh⟩ := s
  have hsc : sc = true := hs
  subst hsc
  refine ⟨?_, fun hle => ⟨?_, ?_⟩, fun hgt => ⟨?_, ?_⟩⟩
  · simp [step]
  · have hle2 : t - lk ≤ scanTimeout := hle
    have hnot : ¬ (t - lk > scanTimeout) := by omega
    simp [step, hnot]
  · have hle2 : t - lk ≤ scanTimeout := hle
    have hnot : ¬ (t - lk > scanTimeout) := by omega
    simp [step, hnot]
  · have hgt2 : t - lk > scanTimeout := hgt
    simp [step, hgt2]
  · have hgt2 : t - lk > scanTimeout := hgt
    simp [step, hgt2]

/-- Witness for modifier_frame_amended at a concrete Listening state. -/
theorem modifier_frame_amended_witness :
    step { scanning := true, debugMode := false, buffer := ['R'], lastKeyTime := 5,
           shiftHeld := false } { key := .shift, ctrl := false, time := 10 } =
      ({ scanning := true, debugMode := false, buffer := ['R'], lastKeyTime := 5,
         shiftHeld := true }, []) ∧
    ((10 : Int) - 5 ≤ scanTimeout →
      step { scanning := true, debugMode := false, buffer := ['R'], lastKeyTime := 5,
             shiftHeld := false } { key := .control, ctrl := false, time := 10 } =
        ({ scanning := true, debugMode := false, buffer := ['R'], lastKeyTime := 5,
           shiftHeld := false }, []) ∧
      step { scanning := true, debugMode := false, buffer := ['R'], lastKeyTime := 5,
             shiftHeld := false } { key := .alt, ctrl := false, time := 10 } =
        ({ scanning := true, debugMode := false, buffer := ['R'], lastKeyTime := 5,
           shiftHeld := false }, [])) ∧
    ((10 : Int) - 5 > scanTimeout →
      step { scanning := true, debugMode := false, buffer := ['R'], lastKeyTime := 5,
             shiftHeld := false } { key := .control, ctrl := false, time := 10 } =
        ({ scanning := true, debugMode := false, buffer := [], lastKeyTime := 5,
           shiftHeld := false }, []) ∧
      step { scanning := true, debugMode := false, buffer := ['R'], lastKeyTime := 5,
             shiftHeld := false } { key := .alt, ctrl := false, time := 10 } =
        ({ scanning := true, debugMode := false, buffer := [], lastKeyTime := 5,
           shiftHeld := false }, [])) :=
  modifier_frame_amended
    { scanning := true, debugMode := false, buffer := ['R'], lastKeyTime := 5,
      shiftHeld := false } 10 rfl

/-! ## Markup resolution (C9) -/

/-- C9 counterexample: with a manufacturer-scope rule holding markup
fraction 0, getMarkupForProduct does not return that rule fraction - the
JavaScript || treats 0 as absent and resolution falls through to the
default 0.2. -/
theorem markup_zero_cex :
    getMarkupWith [{ id := "1", type := .manufacturer, name := "M", markup := 0 }] "M" "C" =
      2/10 ∧ (2/10 : ℚ) ≠ 0 := by
  constructor
  · rfl
  · norm_num

/-- C9 amended: markup resolution returns the manufacturer-scope rule
fraction whenever such a rule exists with nonzero fraction; a
zero-fraction rule is skipped (|| treats 0 as falsy) and resolution
falls through to the category-scope rule under the same nonzero proviso,
and otherwise to the fixed default fraction 0.2. -/
theorem markup_resolution_amended (settings : List MarkupSetting)
    (manufacturer category : String) :
    (∀ s, settings.find? (mfrPred manufacturer) = some s → s.markup ≠ 0 →
      getMarkupWith settings manufacturer category = s.markup) ∧
    (∀ s u, settings.find? (mfrPred manufacturer) = some s → s.markup = 0 →
      settings.find? (catPred category) = some u → u.markup ≠ 0 →
      getMarkupWith settings manufacturer category = u.markup) ∧
    (∀ u, settings.find? (mfrPred manufacturer) = none →
      settings.find? (catPred category) = some u → u.markup ≠ 0 →
      getMarkupWith settings manufacturer category = u.markup) ∧
    ((settings.find? (mfrPred manufacturer) = none ∨
        (∃ s, settings.find? (mfrPred manufacturer) = some s ∧ s.markup = 0)) →
      (settings.find? (catPred category) = none ∨
        (∃ u, settings.find? (catPred category) = some u ∧ u.markup = 0)) →
      getMarkupWith settings manufacturer category = 2/10) := by
  refine ⟨?_, ?_, ?_, ?_⟩
  · intro s hf hnz
    simp [getMarkupWith, hf, jsOrQ, hnz]
  · intro s u hf hz hc hnz
    simp [getMarkupWith, hf, hc, jsOrQ, hz, hnz]
  · intro u hf hc hnz
    simp [getMarkupWith, hf, hc, jsOrQ, hnz]
  · rintro (hf | ⟨s, hf, hz⟩) (hc | ⟨u, hc, hz2⟩) <;>
      simp [getMarkupWith, hf, hc, jsOrQ, *]

/-- Witness for markup_resolution_amended: Cartier resolves to its
manufacturer fraction 0.3 over the built-in table. -/
theorem markup_resolution_witness :
    getMarkupWith defaultMarkupSettings "Cartier" "Rings" = 3/10 :=
  (markup_resolution_amended defaultMarkupSettings "Cartier" "Rings").1
    { id := "1", type := .manufacturer, name := "Cartier", markup := 3/10 }
    rfl (by norm_num)

/-! ## Bar pattern sensitivity (C8) -/

/-- C8 counterexample: substituting the single character of the input
("A" to "D" for generateCode128Bars, "A" to "B" for
generateBarcodePattern) leaves the emitted bar-width sequence unchanged,
so no checksum-derived pattern reacts to the substitution. -/
theorem checksum_insensitive_cex :
    generateCode128Bars "A".toList = generateCode128Bars "D".toList ∧ ('A' : Char) ≠ 'D' ∧
    generateBarcodePattern "A".toList = generateBarcodePattern "B".toList ∧
      ('A' : Char) ≠ 'B' := by
  decide

theorem code128Block_congr (i : Nat) (a b : Char) (h : code128Class a = code128Class b) :
    code128Block i a = code128Block i b := by
  simp only [code128Class] at h
  simp only [code128Block]
  rw [h]

theorem code128BarsAux_subst (a b : Char) (h : code128Class a = code128Class b)
    (r : List Char) : ∀ (l : List Char) (i : Nat),
    code128BarsAux i (l ++ a :: r) = code128BarsAux i (l ++ b :: r) := by
  intro l
  induction l with
  | nil =>
    intro i
    simp only [List.nil_append, code128BarsAux]
    rw [code128Block_congr i a b h]
  | cons x l2 ih =>
    intro i
    rw [show code128BarsAux i ((x :: l2) ++ a :: r) =
        code128Block i x ++ code128BarsAux (i + 1) (l2 ++ a :: r) from rfl]
    rw [show code128BarsAux i ((x :: l2) ++ b :: r) =
        code128Block i x ++ code128BarsAux (i + 1) (l2 ++ b :: r) from rfl]
    rw [ih (i + 1)]

theorem barcodePatternBlock_congr (a b : Char) (h : barcodeCharClass a = barcodeCharClass b) :
    barcodePatternBlock a = barcodePatternBlock b := by
  simp only [barcodeCharClass] at h
  simp only [barcodePatternBlock]
  split_ifs at h ⊢ <;> first | rfl | omega

/-- C8 amended: the two bar generators emit start pattern, one block per
character, stop pattern, with no checksum: each block of
generateCode128Bars depends only on the position parity and on
charCode mod 32 mod 3, and each block of generateBarcodePattern only on
the character class, so any single-character substitution preserving
that class leaves the emitted sequence unchanged. -/
theorem barcode_class_substitution :
    (∀ (l r : List Char) (a b : Char), code128Class a = code128Class b →
      generateCode128Bars (l ++ a :: r) = generateCode128Bars (l ++ b :: r)) ∧
    (∀ (l r : List Char) (a b : Char), barcodeCharClass a = barcodeCharClass b →
      generateBarcodePattern (l ++ a :: r) = generateBarcodePattern (l ++ b :: r)) := by
  constructor
  · intro l r a b h
    unfold generateCode128Bars
    rw [code128BarsAux_subst a b h r l 0]
  · intro l r a b h
    have hb := barcodePatternBlock_congr a b h
    simp [generateBarcodePattern, hb]

/-- Witness for barcode_class_substitution on concrete three-character
payloads. -/
theorem barcode_class_substitution_witness :
    generateCode128Bars ['X', 'A', 'Z'] = generateCode128Bars ['X', 'D', 'Z'] ∧
    generateBarcodePattern ['X', 'A', 'Z'] = generateBarcodePattern ['X', 'B', 'Z'] :=
  ⟨barcode_class_substitution.1 ['X'] ['Z'] 'A' 'D' (by decide),
   barcode_class_substitution.2 ['X'] ['Z'] 'A' 'B' (by decide)⟩

/-! ## Cipher codec lemmas (C1, C2, C3) -/

theorem natToDigitsBE_length (w : Nat) : ∀ n, (natToDigitsBE w n).length = w := by
  induction w with
  | zero => intro n; rfl
  | succ w ih => intro n; simp [natToDigitsBE, ih]

theorem natToDigitsBE_lt (w : Nat) : ∀ n, ∀ d ∈ natToDigitsBE w n, d < 32 := by
  induction w with
  | zero => intro n d hd; simp [natToDigitsBE] at hd
  | succ w ih =>
    intro n d hd
    simp only [natToDigitsBE, List.mem_append, List.mem_singleton] at hd
    rcases hd with hd | hd
    · exact ih _ d hd
    · subst hd; omega

theorem digitsToNat_natToDigitsBE (w : Nat) : ∀ n, digitsToNat (natToDigitsBE w n) = n % 32 ^ w := by
  induction w with
  | zero => intro n; simp [natToDigitsBE, digitsToNat, Nat.mod_one]
  | succ w ih =>
    intro n
    rw [show natToDigitsBE (w + 1) n = natToDigitsBE w (n / 32) ++ [n % 32] from rfl]
    unfold digitsToNat at ih ⊢
    rw [List.foldl_append]
    simp only [List.foldl_cons, List.foldl_nil]
    rw [ih (n / 32), pow_succ, mul_comm ((32 : Nat) ^ w) 32, Nat.mod_mul]
    generalize n / 32 % 32 ^ w = A
    omega

theorem charToDigit_getD : ∀ d, d < 32 → charToDigit (cipherDigits.getD d ' ') = d := by
  decide

theorem contains_getD : ∀ d, d < 32 → cipherDigits.contains (cipherDigits.getD d ' ') = true := by
  decide

theorem encodePrice_length (n : Nat) : (encodePrice n).length = priceWidth := by
  simp [encodePrice, natToDigitsBE_length]

theorem encodePrice_map_charToDigit (n : Nat) :
    (encodePrice n).map charToDigit = natToDigitsBE priceWidth n := by
  unfold encodePrice
  rw [List.map_map]
  conv_rhs => rw [← List.map_id (natToDigitsBE priceWidth n)]
  apply List.map_congr_left
  intro d hd
  exact charToDigit_getD d (natToDigitsBE_lt _ _ d hd)

theorem cipherOk_encodePrice (n : Nat) :
    (encodePrice n).all (fun c => cipherDigits.contains c) = true := by
  rw [List.all_eq_true]
  intro c hc
  simp only [encodePrice, List.mem_map] at hc
  obtain ⟨d, hd, rfl⟩ := hc
  exact contains_getD d (natToDigitsBE_lt _ _ d hd)

theorem decodeCipher_encode (w r : Nat) (hw : w < 32 ^ priceWidth) (hr : r < 32 ^ priceWidth) :
    decodeCipher (String.mk (encodePrice w ++ encodePrice r)) = some (w, r) := by
  have hlist : (String.mk (encodePrice w ++ encodePrice r)).toList =
      encodePrice w ++ encodePrice r := rfl
  have hlen : (encodePrice w ++ encodePrice r).length = 2 * priceWidth := by
    simp [encodePrice_length]
    omega
  have hok : cipherOk (encodePrice w ++ encodePrice r) = true := by
    unfold cipherOk
    rw [List.all_append, cipherOk_encodePrice, cipherOk_encodePrice]
    rfl
  simp only [decodeCipher]
  rw [hlist, if_pos ⟨hlen, hok⟩]
  rw [List.take_left' (encodePrice_length w), List.drop_left' (encodePrice_length w)]
  rw [encodePrice_map_charToDigit, encodePrice_map_charToDigit,
    digitsToNat_natToDigitsBE, digitsToNat_natToDigitsBE,
    Nat.mod_eq_of_lt hw, Nat.mod_eq_of_lt hr]

theorem generateBarcodes_ok (manufacturerTable categoryTable : List (String × String))
    (category manufacturer mcode ccode : String) (wholesalePrice retailPrice : Int)
    (note : Option String)
    (hm : manufacturerTable.lookup manufacturer = some mcode)
    (hc : categoryTable.lookup category = some ccode)
    (hw : 0 < wholesalePrice) (hwr : wholesalePrice < retailPrice)
    (hb : retailPrice < 32 ^ priceWidth) :
    generateBarcodes manufacturerTable categoryTable category manufacturer
        wholesalePrice retailPrice none note =
      .ok { sku := mcode ++ "-" ++ ccode ++ "-" ++
              String.mk (encodePrice wholesalePrice.toNat ++ encodePrice retailPrice.toNat),
            cipher :=
              String.mk (encodePrice wholesalePrice.toNat ++ encodePrice retailPrice.toNat),
            qrPayload := (mcode ++ "-" ++ ccode ++ "-" ++
              String.mk (encodePrice wholesalePrice.toNat ++ encodePrice retailPrice.toNat)) ++
              (match note with | some n => "|" ++ n | none => ""),
            code128Payload := mcode ++ "-" ++ ccode ++ "-" ++
              String.mk (encodePrice wholesalePrice.toNat ++ encodePrice retailPrice.toNat) } := by
  unfold generateBarcodes
  rw [if_neg (by omega), if_neg (by omega), if_neg (by simp), if_neg (by omega), hm, hc]

/-- C1: for valid prices with retailPrice > wholesalePrice > 0 (and a
resolvable manufacturer and category), the modelled encode succeeds and
decoding the cipher field of the resulting ProductCode recovers exactly
the original wholesale and retail prices. -/
theorem cipher_roundtrip (manufacturerTable categoryTable : List (String × String))
    (category manufacturer mcode ccode : String) (wholesalePrice retailPrice : Int)
    (note : Option String)
    (hm : manufacturerTable.lookup manufacturer = some mcode)
    (hc : categoryTable.lookup category = some ccode)
    (hw : 0 < wholesalePrice) (hwr : wholesalePrice < retailPrice)
    (hbound : retailPrice < 32 ^ priceWidth) :
    ∃ pc, generateBarcodes manufacturerTable categoryTable category manufacturer
        wholesalePrice retailPrice none note = .ok pc ∧
      decodeCipher pc.cipher = some (wholesalePrice.toNat, retailPrice.toNat) ∧
      (wholesalePrice.toNat : Int) = wholesalePrice ∧
      (retailPrice.toNat : Int) = retailPrice := by
  have hcast : ((32 ^ priceWidth : Nat) : Int) = (32 : Int) ^ priceWidth := by
    push_cast
    ring
  refine ⟨_, generateBarcodes_ok manufacturerTable categoryTable category manufacturer
    mcode ccode wholesalePrice retailPrice note hm hc hw hwr hbound, ?_, ?_, ?_⟩
  · exact decodeCipher_encode _ _ (by omega) (by omega)
  · omega
  · omega

/-- Witness for cipher_roundtrip at the spec example
(wholesale 10000, retail 25000). -/
theorem cipher_roundtrip_witness :
    ∃ pc, generateBarcodes [("Cartier", "CR")] [("Rings", "RI")] "Rings" "Cartier"
        10000 25000 none none = .ok pc ∧
      decodeCipher pc.cipher = some ((10000 : Int).toNat, (25000 : Int).toNat) ∧
      (((10000 : Int).toNat : Int) = 10000) ∧ (((25000 : Int).toNat : Int) = 25000) :=
  cipher_roundtrip [("Cartier", "CR")] [("Rings", "RI")] "Rings" "Cartier" "CR" "RI"
    10000 25000 none (by decide) (by decide) (by decide) (by decide) (by decide)

/-- C2: whenever retail <= wholesale, wholesale <= buy, or any of the
three prices is non-positive, the submission path fails: the price
validation itself reports an error (so the failure is raised before the
barcode-generation stage runs), handleSubmit returns an error and no
product data, and on the ordering/positivity violations that concern it
the modelled encode itself fails with InvalidInput on any encode path
(covering the preview path, which passes no buy price). -/
theorem encode_invalid_prices_fail (manufacturerTable categoryTable : List (String × String))
    (category manufacturer : String) (buyPrice wholesalePrice retailPrice : Int)
    (additionalInfo : String)
    (hbad : retailPrice ≤ wholesalePrice ∨ wholesalePrice ≤ buyPrice ∨
      buyPrice ≤ 0 ∨ wholesalePrice ≤ 0 ∨ retailPrice ≤ 0) :
    (∃ msg, handleSubmitValidate buyPrice wholesalePrice retailPrice = some msg) ∧
    (∃ msg, handleSubmit manufacturerTable categoryTable category manufacturer
      buyPrice wholesalePrice retailPrice additionalInfo = .error msg) ∧
    ((retailPrice ≤ wholesalePrice ∨ wholesalePrice ≤ 0 ∨ retailPrice ≤ 0) →
      ∀ (buy : Option Int) (note : Option String),
        ∃ msg, generateBarcodes manufacturerTable categoryTable category manufacturer
          wholesalePrice retailPrice buy note = .error (.invalidInput msg)) := by
  have hval : ∃ msg, handleSubmitValidate buyPrice wholesalePrice retailPrice = some msg := by
    unfold handleSubmitValidate
    split_ifs with h1 h2 h3
    · exact ⟨_, rfl⟩
    · exact ⟨_, rfl⟩
    · exact ⟨_, rfl⟩
    · omega
  refine ⟨hval, ?_, ?_⟩
  · obtain ⟨msg, hmsg⟩ := hval
    by_cases hreq : (strTrim category = "" ∨ strTrim manufacturer = "")
    · refine ⟨"Required fields missing", ?_⟩
      unfold handleSubmit
      rw [if_pos hreq]
    · refine ⟨msg, ?_⟩
      unfold handleSubmit
      rw [if_neg hreq, hmsg]
  · intro hord buy note
    unfold generateBarcodes
    by_cases g1 : (wholesalePrice ≤ 0 ∨ retailPrice ≤ 0)
    · rw [if_pos g1]
      exact ⟨_, rfl⟩
    · rw [if_neg g1, if_pos (by omega)]
      exact ⟨_, rfl⟩

/-- Witness for encode_invalid_prices_fail with wholesale below buy. -/
theorem encode_invalid_prices_fail_witness :
    (∃ msg, handleSubmitValidate 5 3 10 = some msg) ∧
    (∃ msg, handleSubmit [] [] "C" "M" 5 3 10 "" = .error msg) ∧
    (((10 : Int) ≤ 3 ∨ (3 : Int) ≤ 0 ∨ (10 : Int) ≤ 0) →
      ∀ (buy : Option Int) (note : Option String),
        ∃ msg, generateBarcodes [] [] "C" "M" 3 10 buy note = .error (.invalidInput msg)) :=
  encode_invalid_prices_fail [] [] "C" "M" 5 3 10 "" (by omega)

theorem handleSubmit_ok_barcodes (manufacturerTable categoryTable : List (String × String))
    (category manufacturer : String) (buyPrice wholesalePrice retailPrice : Int)
    (additionalInfo : String) (p : ProductData)
    (h : handleSubmit manufacturerTable categoryTable category manufacturer
      buyPrice wholesalePrice retailPrice additionalInfo = .ok p) :
    ∃ pc, generateBarcodes manufacturerTable categoryTable category manufacturer
        wholesalePrice retailPrice none (some additionalInfo) = .ok pc ∧
      p.sku = pc.sku ∧ p.cipher = pc.cipher ∧ p.qrCode = pc.qrPayload ∧
      p.code128 = pc.code128Payload := by
  unfold handleSubmit at h
  by_cases hreq : (strTrim category = "" ∨ strTrim manufacturer = "")
  · rw [if_pos hreq] at h
    simp at h
  · rw [if_neg hreq] at h
    split at h
    · simp at h
    · split at h
      · simp at h
      · rename_i pc heq2
        split at h
        · simp at h
        · have hp := (Except.ok.injEq _ _).mp h
          exact ⟨pc, heq2, by rw [← hp], by rw [← hp], by rw [← hp], by rw [← hp]⟩

/-- C3: the buy price does not influence any of the four encoded
outputs: two successful submissions that differ only in the buy price
produce identical sku, cipher, QR payload and Code 128 payload (the buy
price is not even passed to the modelled encode, matching both call
sites). -/
theorem buyprice_noninterference (manufacturerTable categoryTable : List (String × String))
    (category manufacturer : String) (b1 b2 wholesalePrice retailPrice : Int)
    (additionalInfo : String) (p1 p2 : ProductData)
    (h1 : handleSubmit manufacturerTable categoryTable category manufacturer
      b1 wholesalePrice retailPrice additionalInfo = .ok p1)
    (h2 : handleSubmit manufacturerTable categoryTable category manufacturer
      b2 wholesalePrice retailPrice additionalInfo = .ok p2) :
    p1.sku = p2.sku ∧ p1.cipher = p2.cipher ∧ p1.qrCode = p2.qrCode ∧
    p1.code128 = p2.code128 := by
  obtain ⟨pc1, hg1, hs1, hc1, hq1, hk1⟩ := handleSubmit_ok_barcodes manufacturerTable
    categoryTable category manufacturer b1 wholesalePrice retailPrice additionalInfo p1 h1
  obtain ⟨pc2, hg2, hs2, hc2, hq2, hk2⟩ := handleSubmit_ok_barcodes manufacturerTable
    categoryTable category manufacturer b2 wholesalePrice retailPrice additionalInfo p2 h2
  have hpc : pc1 = pc2 := by
    rw [hg1] at hg2
    exact ((Except.ok.injEq _ _).mp hg2)
  subst hpc
  exact ⟨hs1.trans hs2.symm, hc1.trans hc2.symm, hq1.trans hq2.symm, hk1.trans hk2.symm⟩

/-- Witness for buyprice_noninterference: two concrete submissions that
differ only in buy price (100 vs 200) yield the same four outputs. -/
theorem buyprice_noninterference_witness :
    ProductData.sku ⟨"Rings", "Cartier", 100, 10000, 25000, "CR-RI-2BSJ2SFA",
        "CR-RI-2BSJ2SFA|note", "CR-RI-2BSJ2SFA", "2BSJ2SFA"⟩ =
      ProductData.sku ⟨"Rings", "Cartier", 200, 10000, 25000, "CR-RI-2BSJ2SFA",
        "CR-RI-2BSJ2SFA|note", "CR-RI-2BSJ2SFA", "2BSJ2SFA"⟩ ∧
    ProductData.cipher ⟨"Rings", "Cartier", 100, 10000, 25000, "CR-RI-2BSJ2SFA",
        "CR-RI-2BSJ2SFA|note", "CR-RI-2BSJ2SFA", "2BSJ2SFA"⟩ =
      ProductData.cipher ⟨"Rings", "Cartier", 200, 10000, 25000, "CR-RI-2BSJ2SFA",
        "CR-RI-2BSJ2SFA|note", "CR-RI-2BSJ2SFA", "2BSJ2SFA"⟩ ∧
    ProductData.qrCode ⟨"Rings", "Cartier", 100, 10000, 25000, "CR-RI-2BSJ2SFA",
        "CR-RI-2BSJ2SFA|note", "CR-RI-2BSJ2SFA", "2BSJ2SFA"⟩ =
      ProductData.qrCode ⟨"Rings", "Cartier", 200, 10000, 25000, "CR-RI-2BSJ2SFA",
        "CR-RI-2BSJ2SFA|note", "CR-RI-2BSJ2SFA", "2BSJ2SFA"⟩ ∧
    ProductData.code128 ⟨"Rings", "Cartier", 100, 10000, 25000, "CR-RI-2BSJ2SFA",
        "CR-RI-2BSJ2SFA|note", "CR-RI-2BSJ2SFA", "2BSJ2SFA"⟩ =
      ProductData.code128 ⟨"Rings", "Cartier", 200, 10000, 25000, "CR-RI-2BSJ2SFA",
        "CR-RI-2BSJ2SFA|note", "CR-RI-2BSJ2SFA", "2BSJ2SFA"⟩ :=
  buyprice_noninterference [("Cartier", "CR")] [("Rings", "RI")] "Rings" "Cartier"
    100 200 10000 25000 "note"
    ⟨"Rings", "Cartier", 100, 10000, 25000, "CR-RI-2BSJ2SFA",
      "CR-RI-2BSJ2SFA|note", "CR-RI-2BSJ2SFA", "2BSJ2SFA"⟩
    ⟨"Rings", "Cartier", 200, 10000, 25000, "CR-RI-2BSJ2SFA",
      "CR-RI-2BSJ2SFA|note", "CR-RI-2BSJ2SFA", "2BSJ2SFA"⟩
    (by rfl) (by rfl)

/-! ## Scan stream parser lemmas (C4, C5) -/

theorem step_char_in_gap (s : ScanState) (c : Char) (t : Int)
    (hs : s.scanning = true) (hle : t - s.lastKeyTime ≤ scanTimeout) :
    step s { key := .char c, ctrl := false, time := t } =
      ({ s with buffer := (charStep s.buffer c).1, lastKeyTime := t },
       (charStep s.buffer c).2) := by
  have hnot : ¬ (t - s.lastKeyTime > scanTimeout) := by omega
  simp [step, hs, hnot]

theorem step_char_timeout (s : ScanState) (c : Char) (t : Int)
    (hs : s.scanning = true) (hgt : t - s.lastKeyTime > scanTimeout) :
    step s { key := .char c, ctrl := false, time := t } =
      ({ s with buffer := (charStep [] c).1, lastKeyTime := t },
       (charStep [] c).2) := by
  simp [step, hs, hgt]

theorem run_chars (cs : List Char) : ∀ (ts : List Int) (s : ScanState),
    s.scanning = true → ts.length = cs.length → gapsOk s.lastKeyTime ts = true →
    run s (mkEvents cs ts) =
      ({ s with buffer := (pureRun s.buffer cs).1, lastKeyTime := lastD ts s.lastKeyTime },
       (pureRun s.buffer cs).2) := by
  induction cs with
  | nil =>
    intro ts s hs hlen hgap
    have hts : ts = [] := List.length_eq_zero.mp hlen
    subst hts
    rfl
  | cons c cs ih =>
    intro ts s hs hlen hgap
    rcases ts with _ | ⟨t, ts2⟩
    · simp at hlen
    · have hgap1 : t - s.lastKeyTime ≤ scanTimeout := by
        have h2 := hgap
        unfold gapsOk at h2
        simp at h2
        omega
      have hgap2 : gapsOk t ts2 = true := by
        have h2 := hgap
        unfold gapsOk at h2
        simp at h2
        exact h2.2
      have hlen2 : ts2.length = cs.length := by simpa using hlen
      rw [show mkEvents (c :: cs) (t :: ts2) =
        { key := Key.char c, ctrl := false, time := t } :: mkEvents cs ts2 from rfl]
      rw [show run s ({ key := Key.char c, ctrl := false, time := t } :: mkEvents cs ts2) =
        ((run (step s { key := Key.char c, ctrl := false, time := t }).1 (mkEvents cs ts2)).1,
         (step s { key := Key.char c, ctrl := false, time := t }).2 ++
           (run (step s { key := Key.char c, ctrl := false, time := t }).1 (mkEvents cs ts2)).2)
        from rfl]
      rw [step_char_in_gap s c t hs hgap1]
      have ih2 := ih ts2 { s with buffer := (charStep s.buffer c).1, lastKeyTime := t }
        hs hlen2 hgap2
      rw [ih2]
      rfl

theorem run_chars_empty (cs : List Char) (ts : List Int) (s : ScanState)
    (hs : s.scanning = true) (hb : s.buffer = [])
    (hlen : ts.length = cs.length) (hgap : gapsOkList ts = true) :
    run s (mkEvents cs ts) =
      ({ s with buffer := (pureRun [] cs).1, lastKeyTime := lastD ts s.lastKeyTime },
       (pureRun [] cs).2) := by
  rcases cs with _ | ⟨c, cs2⟩
  · have hts : ts = [] := List.length_eq_zero.mp hlen
    subst hts
    obtain ⟨sc, dm, bf, lk, sh⟩ := s
    have hbf : bf = [] := hb
    subst hbf
    rfl
  · rcases ts with _ | ⟨t, ts2⟩
    · simp at hlen
    · by_cases hfirst : t - s.lastKeyTime ≤ scanTimeout
      · have hgall : gapsOk s.lastKeyTime (t :: ts2) = true := by
          unfold gapsOk
          simp
          exact ⟨by omega, hgap⟩
        rw [run_chars (c :: cs2) (t :: ts2) s hs hlen hgall, hb]
      · have hgt : t - s.lastKeyTime > scanTimeout := by omega
        have hg2 : gapsOk t ts2 = true := hgap
        have hlen2 : ts2.length = cs2.length := by simpa using hlen
        rw [show mkEvents (c :: cs2) (t :: ts2) =
          { key := Key.char c, ctrl := false, time := t } :: mkEvents cs2 ts2 from rfl]
        rw [show run s ({ key := Key.char c, ctrl := false, time := t } :: mkEvents cs2 ts2) =
          ((run (step s { key := Key.char c, ctrl := false, time := t }).1 (mkEvents cs2 ts2)).1,
           (step s { key := Key.char c, ctrl := false, time := t }).2 ++
             (run (step s { key := Key.char c, ctrl := false, time := t }).1
               (mkEvents cs2 ts2)).2) from rfl]
        rw [step_char_timeout s c t hs hgt]
        rw [run_chars cs2 ts2 { s with buffer := (charStep [] c).1, lastKeyTime := t }
          hs hlen2 hg2]
        rfl

theorem skuPattern_not_suffix_single (c : Char) : skuPattern.isSuffixOf [c] = false := by
  by_contra hcon
  have htrue : skuPattern.isSuffixOf [c] = true := by
    revert hcon
    cases skuPattern.isSuffixOf [c] <;> simp
  have hsfx : skuPattern <:+ [c] := List.isSuffixOf_iff_suffix.mp htrue
  have hle := hsfx.length_le
  have hlen : skuPattern.length = 11 := by decide
  simp [hlen] at hle

theorem charStep_nil (c : Char) : charStep [] c = ([c], []) := by
  have hdef : charStep [] c = if skuPattern.isSuffixOf [c] = true then
      (List.drop ((jsLastIndexOf [c] skuPattern).getD 0 + skuPattern.length) [c],
       processSkuTrace skuPattern) else ([c], []) := rfl
  rw [hdef, skuPattern_not_suffix_single c]
  simp

set_option maxHeartbeats 2000000 in
set_option maxRecDepth 100000 in
theorem pureRun_two_tokens :
    pureRun [] (skuPattern ++ skuPattern) = ([], [skuPattern, skuPattern]) := by
  decide

/-- C4: while Listening with an empty buffer, a keystroke stream that
delivers two SKU tokens back to back - every consecutive gap within the
inactivity threshold, no Enter - makes the parser emit exactly the two
recognized tokens, in stream order, and after each match only the buffer
remainder following the match is retained (empty here, the final buffer
is empty). -/
theorem scan_two_tokens (s : ScanState) (ts : List Int)
    (hs : s.scanning = true) (hb : s.buffer = [])
    (hlen : ts.length = (skuPattern ++ skuPattern).length)
    (hgap : gapsOkList ts = true) :
    (run s (mkEvents (skuPattern ++ skuPattern) ts)).2 = [skuPattern, skuPattern] ∧
    (run s (mkEvents (skuPattern ++ skuPattern) ts)).1.buffer = [] := by
  rw [run_chars_empty (skuPattern ++ skuPattern) ts s hs hb hlen hgap, pureRun_two_tokens]
  exact ⟨rfl, rfl⟩

/-- Witness for scan_two_tokens on a concrete stream with 10 ms gaps. -/
theorem scan_two_tokens_witness :
    (run ⟨true, false, [], 0, false⟩
      (mkEvents (skuPattern ++ skuPattern)
        [0, 10, 20, 30, 40, 50, 60, 70, 80, 90, 100, 110, 120, 130, 140, 150, 160, 170,
         180, 190, 200, 210])).2 = [skuPattern, skuPattern] ∧
    (run ⟨true, false, [], 0, false⟩
      (mkEvents (skuPattern ++ skuPattern)
        [0, 10, 20, 30, 40, 50, 60, 70, 80, 90, 100, 110, 120, 130, 140, 150, 160, 170,
         180, 190, 200, 210])).1.buffer = [] :=
  scan_two_tokens ⟨true, false, [], 0, false⟩
    [0, 10, 20, 30, 40, 50, 60, 70, 80, 90, 100, 110, 120, 130, 140, 150, 160, 170,
     180, 190, 200, 210]
    rfl rfl (by decide) (by decide)

/-- C5: when an inter-character gap exceeding the inactivity threshold
occurs, the pre-gap buffer contents are discarded before the post-gap
character is appended: that step emits nothing and leaves exactly the
new character in the buffer, and the whole remaining run is identical to
one whose buffer had been empty - no later token can include any
pre-gap character. -/
theorem scan_timeout_discard (s : ScanState) (c : Char) (t : Int) (rest : List KeyEvent)
    (hs : s.scanning = true) (hgt : t - s.lastKeyTime > scanTimeout) :
    (step s { key := .char c, ctrl := false, time := t }).1.buffer = [c] ∧
    (step s { key := .char c, ctrl := false, time := t }).2 = [] ∧
    run s ({ key := Key.char c, ctrl := false, time := t } :: rest) =
      run { s with buffer := [] } ({ key := Key.char c, ctrl := false, time := t } :: rest) := by
  have h1 := step_char_timeout s c t hs hgt
  have h2 := step_char_timeout { s with buffer := [] } c t hs hgt
  refine ⟨?_, ?_, ?_⟩
  · rw [h1]
    show (charStep [] c).1 = [c]
    rw [charStep_nil]
  · rw [h1]
    show (charStep [] c).2 = []
    rw [charStep_nil]
  · have hstep : step s { key := Key.char c, ctrl := false, time := t } =
        step { s with buffer := [] } { key := Key.char c, ctrl := false, time := t } := by
      rw [h1, h2]
    simp only [run]
    rw [hstep]

/-- Witness for scan_timeout_discard at a concrete state and gap. -/
theorem scan_timeout_discard_witness :
    (step ⟨true, false, ['R', 'I'], 0, false⟩
      { key := .char 'X', ctrl := false, time := 100 }).1.buffer = ['X'] ∧
    (step ⟨true, false, ['R', 'I'], 0, false⟩
      { key := .char 'X', ctrl := false, time := 100 }).2 = [] ∧
    run ⟨true, false, ['R', 'I'], 0, false⟩
        ({ key := Key.char 'X', ctrl := false, time := 100 } :: []) =
      run ⟨true, false, [], 0, false⟩
        ({ key := Key.char 'X', ctrl := false, time := 100 } :: []) :=
  scan_timeout_discard ⟨true, false, ['R', 'I'], 0, false⟩ 'X' 100 [] rfl (by decide)

end POS
